import Mathlib

set_option autoImplicit false
set_option maxRecDepth 8192

deriving instance DecidableEq for Except

/-
Shallow embedding of the POTCAR storage and deduplication subsystem of
aiida-vasp (aiida_vasp/data/potcar.py, aiida_vasp/commands/potcar.py and the
multi-record i/o layer), together with proofs of its specified properties.

Payloads are modelled as lists of text lines; the external collaborators
(the content hash `md5_file` from aiida and the header parser from pymatgen
PotcarSingle) are modelled as concrete functions of the payload, which is all
the core logic depends on.  Database tables are lists of attribute records,
and every fallible operation returns `Except`.
-/

namespace AiidaVasp

/-- End-of-record marker line of the POTCAR wire format: every record is a
self-delimited text block ending with this explicit marker. -/
def endOfRecord : String := "End of Dataset"

/-- A POTCAR payload, modelled as the list of its text lines. -/
structure Payload where
  lines : List String
deriving DecidableEq, Repr

/-- Model of the external content hash function (aiida `md5_file`): a concrete
digest of the raw payload, used only as a content-determined identity key. -/
def md5_file (p : Payload) : Nat :=
  p.lines.foldl (fun h l => h * 101 + l.length + 1) 7

/-- Split a character list into the fields delimited by a separator. -/
def fields_on (sep : Char) : List Char → List (List Char)
  | [] => [[]]
  | c :: rest =>
    if c = sep then [] :: fields_on sep rest
    else
      match fields_on sep rest with
      | [] => [[c]]
      | w :: ws => (c :: w) :: ws

/-- Split a string into the fields delimited by a separator character. -/
def split_on_char (sep : Char) (s : String) : List String :=
  (fields_on sep s.data).map fun cs => { data := cs }

/-- Model of the external header parser (pymatgen `PotcarSingle`): the title is
the header line of the payload. -/
def parse_title (p : Payload) : String := p.lines.headD ""

/-- Model of the external header parser: the symbol is the second word of the
title (`TITEL.split()[1]` in pymatgen terms). -/
def parse_symbol (p : Payload) : String :=
  (split_on_char ' ' (parse_title p)).getD 1 ""

/-- Model of the external header parser: the element is the symbol stripped of
its underscore suffix. -/
def parse_element (p : Payload) : String :=
  (split_on_char '_' (parse_symbol p)).getD 0 ""

/-- Model of the external header parser: the functional class is read from the
second line of the payload (the exchange keyword line). -/
def parse_functional (p : Payload) : String := p.lines.getD 1 ""

/-- The five metadata attributes a Potcar node carries: md5, title,
functional, element, symbol (`PotcarData._meta_attrs`). -/
structure PotcarAttrs where
  md5 : Nat
  title : String
  functional : String
  element : String
  symbol : String
deriving DecidableEq, Repr

/-- Attributes derived from a payload at `add_file` time: md5 of the raw
bytes plus the four header fields. -/
def parse_attrs (p : Payload) : PotcarAttrs :=
  { md5 := md5_file p
    title := parse_title p
    functional := parse_functional p
    element := parse_element p
    symbol := parse_symbol p }

/-- An attribute filter: each field is either a required value or a wildcard.
This models the `filters` dict built by `query_by_attrs`. -/
structure AttrFilter where
  md5 : Option Nat
  title : Option String
  functional : Option String
  element : Option String
  symbol : Option String
deriving DecidableEq, Repr

/-- Does an optional filter field accept a value? -/
def matches_opt {α : Type} [DecidableEq α] (f : Option α) (v : α) : Bool :=
  match f with
  | none => true
  | some x => decide (x = v)

/-- Does a record satisfy every field of a filter? -/
def matches_filter (f : AttrFilter) (r : PotcarAttrs) : Bool :=
  matches_opt f.md5 r.md5 && matches_opt f.title r.title &&
    matches_opt f.functional r.functional && matches_opt f.element r.element &&
    matches_opt f.symbol r.symbol

/-- `PotcarMetadataMixin.query_by_attrs`: all records of the table whose
attributes equal every given filter value. -/
def query_by_attrs (tbl : List PotcarAttrs) (f : AttrFilter) : List PotcarAttrs :=
  tbl.filter (matches_filter f)

/-- Number of records matching a filter (the query builder `count`). -/
def count_attrs (tbl : List PotcarAttrs) (f : AttrFilter) : Nat :=
  (query_by_attrs tbl f).length

/-- `PotcarMetadataMixin.exists`: `bool(count >= 1)`. -/
def exists_attrs (tbl : List PotcarAttrs) (f : AttrFilter) : Bool :=
  decide (1 ≤ count_attrs tbl f)

/-- Errors surfaced by the metadata index and the node store. -/
inductive DbError where
  | uniquenessError
  | notFound
  | ambiguousMatch
deriving DecidableEq, Repr

/-- `PotcarMetadataMixin.find`, i.e. `query_by_attrs(...).one()`: the single
matching record, NotFound on zero matches, AmbiguousMatch on more than one. -/
def find_one (tbl : List PotcarAttrs) (f : AttrFilter) : Except DbError PotcarAttrs :=
  match query_by_attrs tbl f with
  | [] => .error .notFound
  | [r] => .ok r
  | _ :: _ :: _ => .error .ambiguousMatch

/-- Filter on the md5 attribute alone (`exists(md5=...)`, `find(md5=...)`). -/
def md5_filter (m : Nat) : AttrFilter :=
  { md5 := some m, title := none, functional := none, element := none, symbol := none }

/-- Filter on all attributes except md5 (`get_attrs()` with `md5` popped). -/
def non_md5_filter (r : PotcarAttrs) : AttrFilter :=
  { md5 := none, title := some r.title, functional := some r.functional,
    element := some r.element, symbol := some r.symbol }

/-- Filter on the complete attribute set (`find(**self.get_attrs())`). -/
def all_attrs_filter (r : PotcarAttrs) : AttrFilter :=
  { md5 := some r.md5, title := some r.title, functional := some r.functional,
    element := some r.element, symbol := some r.symbol }

/-- `verify_unique`: raise a UniquenessError if a record with the same md5
exists, or if a record with the same non-md5 attributes exists. -/
def verify_unique (tbl : List PotcarAttrs) (r : PotcarAttrs) : Except DbError Unit :=
  if exists_attrs tbl (md5_filter r.md5) then .error .uniquenessError
  else if exists_attrs tbl (non_md5_filter r) then .error .uniquenessError
  else .ok ()

/-- The database state: the PotcarFileData table and the PotcarData table
(two independent namespaces of the same attribute schema). -/
structure DbState where
  file_nodes : List PotcarAttrs
  data_nodes : List PotcarAttrs
deriving DecidableEq, Repr

/-- `PotcarData.set_potcar_file_node`: initialise a PotcarData node by copying
the five metadata attributes of the file node; no link to the file node is
kept, the copied quintuple is the node's complete state. -/
def PotcarData.set_potcar_file_node (file_node : PotcarAttrs) : PotcarAttrs :=
  file_node

/-- `PotcarData.store`: verify uniqueness against the PotcarData table, then
persist the node. -/
def PotcarData.store (s : DbState) (r : PotcarAttrs) : Except DbError DbState :=
  match verify_unique s.data_nodes r with
  | .error e => .error e
  | .ok _ => .ok { s with data_nodes := s.data_nodes ++ [r] }

/-- `PotcarData.find_file_node`: find the matching PotcarFileData node by
querying with the complete attribute set of this node. -/
def PotcarData.find_file_node (s : DbState) (d : PotcarAttrs) : Except DbError PotcarAttrs :=
  find_one s.file_nodes (all_attrs_filter d)

/-- `PotcarData.get_or_create`: if a PotcarData node with the file node's md5
exists, find and return it; otherwise create one from the file node and store
it.  The boolean reports whether a node was created. -/
def PotcarData.get_or_create (s : DbState) (file_node : PotcarAttrs) :
    Except DbError (DbState × PotcarAttrs × Bool) :=
  if exists_attrs s.data_nodes (md5_filter file_node.md5) then
    match find_one s.data_nodes (md5_filter file_node.md5) with
    | .error e => .error e
    | .ok node => .ok (s, node, false)
  else
    match PotcarData.store s (PotcarData.set_potcar_file_node file_node) with
    | .error e => .error e
    | .ok s' => .ok (s', PotcarData.set_potcar_file_node file_node, true)

/-- `PotcarFileData.store`: get-or-create the matching PotcarData node first,
then verify uniqueness against the PotcarFileData table, then persist. -/
def PotcarFileData.store (s : DbState) (r : PotcarAttrs) : Except DbError DbState :=
  match PotcarData.get_or_create s r with
  | .error e => .error e
  | .ok (s1, _node, _created) =>
    match verify_unique s1.file_nodes r with
    | .error e => .error e
    | .ok _ => .ok { s1 with file_nodes := s1.file_nodes ++ [r] }

/-- `PotcarFileData.get_or_create`: if a file node with the payload's md5
exists, find and return it; otherwise parse the payload into a new node and
store it. -/
def PotcarFileData.get_or_create (s : DbState) (p : Payload) :
    Except DbError (DbState × PotcarAttrs × Bool) :=
  if exists_attrs s.file_nodes (md5_filter (md5_file p)) then
    match find_one s.file_nodes (md5_filter (md5_file p)) with
    | .error e => .error e
    | .ok node => .ok (s, node, false)
  else
    match PotcarFileData.store s (parse_attrs p) with
    | .error e => .error e
    | .ok s' => .ok (s', parse_attrs p, true)

/-- Ingest a payload (spec section 4.3, as realised by the two `get_or_create`
operations): get-or-create the full record, then get-or-create its shadow
record, and return the shadow record with both created flags. -/
def ingest (s : DbState) (p : Payload) :
    Except DbError (DbState × PotcarAttrs × Bool × Bool) :=
  match PotcarFileData.get_or_create s p with
  | .error e => .error e
  | .ok (s1, file_node, created_file) =>
    match PotcarData.get_or_create s1 file_node with
    | .error e => .error e
    | .ok (s2, data_node, created_data) => .ok (s2, data_node, created_file, created_data)

/-- Error raised when a second payload is added to a populated archive node
(`AttributeError('Can only hold one POTCAR file')`). -/
inductive ArchiveError where
  | capacityError
deriving DecidableEq, Repr

/-- A PotcarFileData node before it is stored: the archive file list together
with the attributes set by `add_file`.  Modelled from the spec: the
`ArchiveData` base class (`_filelist`, appending `add_file`) is not under
src/; per section 4.1 a content entity holds payloads and rejects a second
one. -/
structure PotcarFileNode where
  filelist : List Payload
  attrs : Option PotcarAttrs
deriving DecidableEq, Repr

/-- `PotcarFileData.add_file`: refuse a second payload, otherwise archive the
payload and set the five derived attributes from it. -/
def PotcarFileData.add_file (n : PotcarFileNode) (src : Payload) :
    Except ArchiveError PotcarFileNode :=
  if n.filelist ≠ [] then .error .capacityError
  else .ok { filelist := n.filelist ++ [src], attrs := some (parse_attrs src) }

/-- State of a family upload: the database plus the md5 members of the family
group being uploaded to. -/
structure UploadState where
  db : DbState
  family : List Nat
deriving DecidableEq, Repr

/-- Errors of a family upload. -/
inductive UploadError where
  | duplicateUpload (offending : Payload)
  | dbError (e : DbError)
deriving DecidableEq, Repr

/-- Idempotent family membership: adding a member twice is a no-op. -/
def add_to_family (fam : List Nat) (m : Nat) : List Nat :=
  if m ∈ fam then fam else fam ++ [m]

/-- Modelled from the spec: one step of `upload_potcar_family` (whose body is
not under src/; modelled from spec section 4.4 and the docstring).  Compute
the payload's hash and check existence: a new payload is ingested and counted
as newly stored; an existing one aborts with DuplicateUpload under
`stop_if_existing`, and is otherwise added to the family without being
counted. -/
def upload_step (stop_if_existing : Bool) (st : UploadState) (p : Payload) :
    Except UploadError (UploadState × Bool) :=
  if exists_attrs st.db.file_nodes (md5_filter (md5_file p)) then
    if stop_if_existing then .error (.duplicateUpload p)
    else .ok ({ st with family := add_to_family st.family (md5_file p) }, false)
  else
    match PotcarFileData.get_or_create st.db p with
    | .error e => .error (.dbError e)
    | .ok (db', node, _created) =>
      .ok ({ db := db', family := add_to_family st.family node.md5 }, true)

/-- Modelled from the spec: the upload loop over the enumerated candidate
files, accumulating the newly-stored count and aborting on the first error. -/
def upload_loop (stop_if_existing : Bool) :
    UploadState → List Payload → Nat → Except UploadError (UploadState × Nat)
  | st, [], acc => .ok (st, acc)
  | st, p :: ps, acc =>
    match upload_step stop_if_existing st p with
    | .error e => .error e
    | .ok (st', created) =>
      upload_loop stop_if_existing st' ps (acc + if created then 1 else 0)

/-- Modelled from the spec: `upload_potcar_family` returns the pair
`(files_found, files_newly_stored)` over the enumerated files. -/
def upload_potcar_family (st : UploadState) (files : List Payload)
    (stop_if_existing : Bool) : Except UploadError (UploadState × Nat × Nat) :=
  match upload_loop stop_if_existing st files 0 with
  | .error e => .error e
  | .ok (st', uploaded) => .ok (st', files.length, uploaded)

/-- A potcar family group: unique name and description. -/
structure Group where
  name : String
  description : String
deriving DecidableEq, Repr

/-- Error of the description click-parameter callback
(`click.MissingParameter`). -/
inductive ParamError where
  | missingParameter
deriving DecidableEq, Repr

/-- Python falsiness of the optional description value: absent or empty. -/
def is_falsy (value : Option String) : Bool :=
  match value with
  | none => true
  | some v => decide (v = "")

/-- Modelled from the spec: `PotcarData.get_potcar_group` (its body is not
under src/, only its declaration) returns the family group with the given
name, if any. -/
def get_potcar_group (groups : List Group) (group_name : String) : Option Group :=
  groups.find? (fun g => decide (g.name = group_name))

/-- `try_grab_description`: when no description is given, reuse the existing
group's description if the name exists, otherwise report a missing
parameter. -/
def try_grab_description (groups : List Group) (group_name : String)
    (value : Option String) : Except ParamError String :=
  if is_falsy value then
    if (groups.map Group.name).contains group_name then
      match get_potcar_group groups group_name with
      | some g => .ok g.description
      | none => .error .missingParameter
    else .error .missingParameter
  else .ok (value.getD "")

/-- Modelled from the spec: `MultiPotcarIo.write` (aiida_vasp/io/potcar.py is
not under src/) concatenates the raw lines of the wrapped records verbatim,
in the caller-supplied order. -/
def multi_write (records : List (List String)) : List String :=
  records.flatten

/-- Modelled from the spec: the record splitter of `MultiPotcarIo.read`.
Lines are accumulated (in reverse) into the current record; each
end-of-record marker closes the current record at that boundary. -/
def split_records : List String → List String → List (List String)
  | acc, [] => if acc.isEmpty then [] else [acc.reverse]
  | acc, l :: rest =>
    if l = endOfRecord then (l :: acc).reverse :: split_records [] rest
    else split_records (l :: acc) rest

/-- Modelled from the spec: `MultiPotcarIo.read` splits the concatenated
content at the end-of-record boundaries and wraps each segment. -/
def multi_read (ls : List String) : List (List String) :=
  split_records [] ls

/-- Hash of a record wrapper: the content hash of its lines (wrapper equality
is equality of this hash). -/
def line_md5 (ls : List String) : Nat :=
  md5_file { lines := ls }

/-- A well-formed record of the wire format: nonempty, ends with the explicit
end-of-record marker, and contains the marker nowhere else. -/
def well_formed_record (r : List String) : Prop :=
  r ≠ [] ∧ r.getLast? = some endOfRecord ∧ ∀ l ∈ r.dropLast, l ≠ endOfRecord

instance (r : List String) : Decidable (well_formed_record r) := by
  unfold well_formed_record
  infer_instance

/-! Sample data used by the concrete instantiations below. -/

/-- A sample As POTCAR payload. -/
def payload_as : Payload :=
  { lines := ["PAW_PBE As 06Sep2000", "PE", "body", endOfRecord] }

/-- A sample Ga POTCAR payload. -/
def payload_ga : Payload :=
  { lines := ["PAW_PBE Ga 03Mar1998", "PE", endOfRecord] }

/-- A payload with the same header lines as `payload_as` (hence identical
parsed attributes) but a different body, so a different content hash. -/
def payload_as_clash : Payload :=
  { lines := ["PAW_PBE As 06Sep2000", "PE", "different body", endOfRecord] }

/-- The empty database. -/
def empty_db : DbState := { file_nodes := [], data_nodes := [] }

/-- Attributes parsed from the sample As payload. -/
def attrs_as : PotcarAttrs := parse_attrs payload_as

/-- Attributes parsed from the sample Ga payload. -/
def attrs_ga : PotcarAttrs := parse_attrs payload_ga

/-- Database holding the sample As record and its shadow record. -/
def db_as : DbState := { file_nodes := [attrs_as], data_nodes := [attrs_as] }

/-- Database holding the sample Ga record and its shadow record. -/
def db_ga : DbState := { file_nodes := [attrs_ga], data_nodes := [attrs_ga] }

/-- Upload starting state: the Ga record is already stored, empty family. -/
def upload_start : UploadState := { db := db_ga, family := [] }

/-- Upload result state for uploading the As and Ga payloads over
`upload_start`. -/
def upload_result : UploadState :=
  { db := { file_nodes := [attrs_ga, attrs_as], data_nodes := [attrs_ga, attrs_as] },
    family := [md5_file payload_as, md5_file payload_ga] }

/-- Upload starting state for the duplicate scenario: the As record is
already stored. -/
def dup_start : UploadState := { db := db_as, family := [] }

/-- Sample ordered record list for the multi-record round trip. -/
def sample_records : List (List String) := [payload_as.lines, payload_ga.lines]

/-! Characterisations of the query layer. -/

theorem matches_md5_filter (m : Nat) (r : PotcarAttrs) :
    matches_filter (md5_filter m) r = true ↔ r.md5 = m := by
  simp [matches_filter, md5_filter, matches_opt, eq_comm]

theorem matches_non_md5_filter (x r : PotcarAttrs) :
    matches_filter (non_md5_filter x) r = true ↔
      x.title = r.title ∧ x.functional = r.functional ∧ x.element = r.element ∧
        x.symbol = r.symbol := by
  simp [matches_filter, non_md5_filter, matches_opt, and_assoc]

theorem matches_all_attrs_filter (x r : PotcarAttrs) :
    matches_filter (all_attrs_filter x) r = true ↔ x = r := by
  cases x
  cases r
  simp [matches_filter, all_attrs_filter, matches_opt, PotcarAttrs.mk.injEq, and_assoc]

theorem mem_query_by_attrs (tbl : List PotcarAttrs) (f : AttrFilter) (r : PotcarAttrs) :
    r ∈ query_by_attrs tbl f ↔ r ∈ tbl ∧ matches_filter f r = true := by
  simp [query_by_attrs, List.mem_filter]

theorem query_by_attrs_append (t1 t2 : List PotcarAttrs) (f : AttrFilter) :
    query_by_attrs (t1 ++ t2) f = query_by_attrs t1 f ++ query_by_attrs t2 f := by
  simp [query_by_attrs, List.filter_append]

theorem exists_attrs_iff (tbl : List PotcarAttrs) (f : AttrFilter) :
    exists_attrs tbl f = true ↔ ∃ r ∈ tbl, matches_filter f r = true := by
  constructor
  · intro h
    have hlen : 0 < (query_by_attrs tbl f).length := by
      simpa [exists_attrs, count_attrs] using h
    have hne : query_by_attrs tbl f ≠ [] := List.length_pos.mp hlen
    rcases List.exists_mem_of_ne_nil _ hne with ⟨r, hr⟩
    exact ⟨r, (mem_query_by_attrs tbl f r).mp hr⟩
  · intro ⟨r, hmem, hmatch⟩
    have hr : r ∈ query_by_attrs tbl f := (mem_query_by_attrs tbl f r).mpr ⟨hmem, hmatch⟩
    have : 0 < (query_by_attrs tbl f).length := List.length_pos.mpr (List.ne_nil_of_mem hr)
    simpa [exists_attrs, count_attrs] using this

theorem exists_attrs_false_iff (tbl : List PotcarAttrs) (f : AttrFilter) :
    exists_attrs tbl f = false ↔ query_by_attrs tbl f = [] := by
  constructor
  · intro h
    by_contra hne
    rcases List.exists_mem_of_ne_nil _ hne with ⟨r, hr⟩
    have := (exists_attrs_iff tbl f).mpr ⟨r, (mem_query_by_attrs tbl f r).mp hr⟩
    simp [this] at h
  · intro h
    simp [exists_attrs, count_attrs, h]

theorem find_one_ok_iff (tbl : List PotcarAttrs) (f : AttrFilter) (r : PotcarAttrs) :
    find_one tbl f = .ok r ↔ query_by_attrs tbl f = [r] := by
  cases h : query_by_attrs tbl f with
  | nil => simp [find_one, h]
  | cons a t =>
    cases t with
    | nil => simp [find_one, h]
    | cons b t2 => simp [find_one, h]

theorem verify_unique_ok_iff (tbl : List PotcarAttrs) (r : PotcarAttrs) :
    verify_unique tbl r = .ok () ↔
      exists_attrs tbl (md5_filter r.md5) = false ∧
        exists_attrs tbl (non_md5_filter r) = false := by
  unfold verify_unique
  rcases h1 : exists_attrs tbl (md5_filter r.md5) with _ | _ <;>
    rcases h2 : exists_attrs tbl (non_md5_filter r) with _ | _ <;> simp

theorem verify_unique_error_iff (tbl : List PotcarAttrs) (r : PotcarAttrs) (e : DbError) :
    verify_unique tbl r = .error e ↔
      e = .uniquenessError ∧
        (exists_attrs tbl (md5_filter r.md5) = true ∨
          exists_attrs tbl (non_md5_filter r) = true) := by
  unfold verify_unique
  rcases h1 : exists_attrs tbl (md5_filter r.md5) with _ | _ <;>
    rcases h2 : exists_attrs tbl (non_md5_filter r) with _ | _ <;>
      simp [eq_comm]

theorem exists_attrs_of_query_eq (tbl : List PotcarAttrs) (f : AttrFilter)
    (x : PotcarAttrs) (h : query_by_attrs tbl f = [x]) : exists_attrs tbl f = true := by
  simp [exists_attrs, count_attrs, h]

theorem query_by_attrs_singleton_md5 (r : PotcarAttrs) :
    query_by_attrs [r] (md5_filter r.md5) = [r] := by
  have hm : matches_filter (md5_filter r.md5) r = true := (matches_md5_filter r.md5 r).mpr rfl
  simp [query_by_attrs, hm]

/-! Structural facts about the get-or-create operations. -/

theorem potcar_data_get_or_create_ok (s : DbState) (f : PotcarAttrs) (s' : DbState)
    (d : PotcarAttrs) (c : Bool)
    (h : PotcarData.get_or_create s f = .ok (s', d, c)) :
    s'.file_nodes = s.file_nodes ∧
      query_by_attrs s'.data_nodes (md5_filter f.md5) = [d] ∧
      (c = false → s' = s ∧ d ∈ s.data_nodes ∧ d.md5 = f.md5) ∧
      (c = true → d = f ∧ s'.data_nodes = s.data_nodes ++ [f]) := by
  unfold PotcarData.get_or_create at h
  split at h
  case isTrue hex =>
    cases hfind : find_one s.data_nodes (md5_filter f.md5) with
    | error e => rw [hfind] at h; simp at h
    | ok node =>
      rw [hfind] at h
      simp only [Except.ok.injEq, Prod.mk.injEq] at h
      obtain ⟨rfl, rfl, rfl⟩ := h
      have hq := (find_one_ok_iff _ _ _).mp hfind
      have hmem := (mem_query_by_attrs _ _ _).mp (hq ▸ List.mem_singleton_self node)
      refine ⟨rfl, hq, fun _ => ⟨rfl, hmem.1, (matches_md5_filter _ _).mp hmem.2⟩, ?_⟩
      intro hc
      exact absurd hc (by simp)
  case isFalse hex =>
    cases hst : PotcarData.store s (PotcarData.set_potcar_file_node f) with
    | error e => rw [hst] at h; simp at h
    | ok s1 =>
      rw [hst] at h
      simp only [Except.ok.injEq, Prod.mk.injEq] at h
      obtain ⟨rfl, rfl, rfl⟩ := h
      unfold PotcarData.store PotcarData.set_potcar_file_node at hst
      cases hv : verify_unique s.data_nodes f with
      | error e => rw [hv] at hst; simp at hst
      | ok u =>
        rw [hv] at hst
        simp only [Except.ok.injEq] at hst
        subst hst
        have hempty : query_by_attrs s.data_nodes (md5_filter f.md5) = [] := by
          have hfalse : exists_attrs s.data_nodes (md5_filter f.md5) = false := by
            rcases hb : exists_attrs s.data_nodes (md5_filter f.md5) with _ | _
            · rfl
            · exact absurd hb hex
          exact (exists_attrs_false_iff _ _).mp hfalse
        refine ⟨rfl, ?_, fun hc => absurd hc (by simp), fun _ => ⟨rfl, rfl⟩⟩
        rw [show ({ s with data_nodes := s.data_nodes ++ [f] } : DbState).data_nodes
            = s.data_nodes ++ [f] from rfl]
        rw [query_by_attrs_append, hempty, query_by_attrs_singleton_md5]
        rfl

theorem potcar_data_get_or_create_of_query (s : DbState) (f d : PotcarAttrs)
    (hq : query_by_attrs s.data_nodes (md5_filter f.md5) = [d]) :
    PotcarData.get_or_create s f = .ok (s, d, false) := by
  unfold PotcarData.get_or_create
  rw [if_pos (exists_attrs_of_query_eq _ _ _ hq)]
  rw [(find_one_ok_iff _ _ _).mpr hq]

theorem potcar_data_get_or_create_stable (s : DbState) (f : PotcarAttrs) (s' : DbState)
    (d : PotcarAttrs) (c : Bool)
    (h : PotcarData.get_or_create s f = .ok (s', d, c)) :
    PotcarData.get_or_create s' f = .ok (s', d, false) := by
  obtain ⟨_, hq, _, _⟩ := potcar_data_get_or_create_ok s f s' d c h
  exact potcar_data_get_or_create_of_query s' f d hq

theorem potcar_file_store_ok (s : DbState) (r : PotcarAttrs) (s' : DbState)
    (h : PotcarFileData.store s r = .ok s') :
    ∃ s1 node c, PotcarData.get_or_create s r = .ok (s1, node, c) ∧
      verify_unique s1.file_nodes r = .ok () ∧
      s'.file_nodes = s1.file_nodes ++ [r] ∧ s'.data_nodes = s1.data_nodes := by
  unfold PotcarFileData.store at h
  cases hgoc : PotcarData.get_or_create s r with
  | error e => rw [hgoc] at h; simp at h
  | ok res =>
    obtain ⟨s1, node, c⟩ := res
    rw [hgoc] at h
    dsimp only at h
    cases hv : verify_unique s1.file_nodes r with
    | error e => rw [hv] at h; simp at h
    | ok u =>
      rw [hv] at h
      simp only [Except.ok.injEq] at h
      subst h
      exact ⟨s1, node, c, rfl, by cases u; exact hv, rfl, rfl⟩

theorem potcar_file_get_or_create_ok (s : DbState) (p : Payload) (s' : DbState)
    (f : PotcarAttrs) (c : Bool)
    (h : PotcarFileData.get_or_create s p = .ok (s', f, c)) :
    f.md5 = md5_file p ∧
      query_by_attrs s'.file_nodes (md5_filter (md5_file p)) = [f] ∧
      (c = false → s' = s ∧ f ∈ s.file_nodes) ∧
      (c = true → f = parse_attrs p ∧ s'.file_nodes = s.file_nodes ++ [f]) := by
  unfold PotcarFileData.get_or_create at h
  split at h
  case isTrue hex =>
    cases hfind : find_one s.file_nodes (md5_filter (md5_file p)) with
    | error e => rw [hfind] at h; simp at h
    | ok node =>
      rw [hfind] at h
      simp only [Except.ok.injEq, Prod.mk.injEq] at h
      obtain ⟨rfl, rfl, rfl⟩ := h
      have hq := (find_one_ok_iff _ _ _).mp hfind
      have hmem := (mem_query_by_attrs _ _ _).mp (hq ▸ List.mem_singleton_self node)
      exact ⟨(matches_md5_filter _ _).mp hmem.2, hq, fun _ => ⟨rfl, hmem.1⟩,
        fun hc => absurd hc (by simp)⟩
  case isFalse hex =>
    cases hst : PotcarFileData.store s (parse_attrs p) with
    | error e => rw [hst] at h; simp at h
    | ok s1 =>
      rw [hst] at h
      simp only [Except.ok.injEq, Prod.mk.injEq] at h
      obtain ⟨rfl, rfl, rfl⟩ := h
      obtain ⟨sg, node, cg, hgoc, hv, hfiles, hdata⟩ :=
        potcar_file_store_ok s (parse_attrs p) s1 hst
      have hgfiles := (potcar_data_get_or_create_ok s (parse_attrs p) sg node cg hgoc).1
      have hmd5 : (parse_attrs p).md5 = md5_file p := rfl
      have hempty : query_by_attrs sg.file_nodes (md5_filter (md5_file p)) = [] := by
        have := ((verify_unique_ok_iff _ _).mp hv).1
        rw [hmd5] at this
        exact (exists_attrs_false_iff _ _).mp this
      refine ⟨hmd5, ?_, fun hc => absurd hc (by simp),
        fun _ => ⟨rfl, by rw [hfiles, hgfiles]⟩⟩
      rw [hfiles, query_by_attrs_append, hempty]
      have : query_by_attrs [parse_attrs p] (md5_filter (md5_file p)) = [parse_attrs p] := by
        have := query_by_attrs_singleton_md5 (parse_attrs p)
        rwa [hmd5] at this
      rw [this]
      rfl

theorem potcar_file_get_or_create_of_query (s : DbState) (p : Payload)
    (f : PotcarAttrs)
    (hq : query_by_attrs s.file_nodes (md5_filter (md5_file p)) = [f]) :
    PotcarFileData.get_or_create s p = .ok (s, f, false) := by
  unfold PotcarFileData.get_or_create
  rw [if_pos (exists_attrs_of_query_eq _ _ _ hq)]
  rw [(find_one_ok_iff _ _ _).mpr hq]

/-- C2: for every payload P, calling ingest(P) a second time returns the same
ShadowRecord (the very same attribute record, hence an equal hash) as the
first call, performs no new FullRecord insertion (the created flags are both
false: both get_or_create operations find the existing node by its md5 hash),
and leaves the database state unchanged. -/
theorem ingest_second_call_finds_existing (s : DbState) (p : Payload)
    (s1 : DbState) (d : PotcarAttrs) (c1 c2 : Bool)
    (h : ingest s p = .ok (s1, d, c1, c2)) :
    ingest s1 p = .ok (s1, d, false, false) := by
  unfold ingest at h ⊢
  cases hf : PotcarFileData.get_or_create s p with
  | error e => rw [hf] at h; simp at h
  | ok resF =>
    obtain ⟨sA, f, cA⟩ := resF
    rw [hf] at h
    dsimp only at h
    cases hd : PotcarData.get_or_create sA f with
    | error e => rw [hd] at h; simp at h
    | ok resD =>
      obtain ⟨sB, dB, cB⟩ := resD
      rw [hd] at h
      dsimp only at h
      simp only [Except.ok.injEq, Prod.mk.injEq] at h
      obtain ⟨rfl, rfl, rfl, rfl⟩ := h
      have hfok := potcar_file_get_or_create_ok s p sA f cA hf
      have hdok := potcar_data_get_or_create_ok sA f sB dB cB hd
      have hq : query_by_attrs sB.file_nodes (md5_filter (md5_file p)) = [f] := by
        rw [hdok.1]
        exact hfok.2.1
      rw [potcar_file_get_or_create_of_query sB p f hq]
      dsimp only
      rw [potcar_data_get_or_create_of_query sB f dB hdok.2.1]

/-- Witness for C2: ingesting the sample As payload into the empty database
and ingesting it again finds the existing nodes. -/
theorem ingest_second_call_finds_existing_witness :
    ingest empty_db payload_as = .ok (db_as, attrs_as, true, false) ∧
      ingest db_as payload_as = .ok (db_as, attrs_as, false, false) :=
  ⟨by decide,
   ingest_second_call_finds_existing empty_db payload_as db_as attrs_as true false
    (by decide)⟩

/-- C3: storing a record fails with a UniquenessError exactly when (a) a
record with the same hash already exists in the index, or (b) a record with
identical non-hash attributes (title, functional, element, symbol) but a
different hash exists; otherwise the store succeeds and appends the
record. -/
theorem insert_fails_iff_hash_or_attr_collision (s : DbState) (r : PotcarAttrs) :
    (PotcarData.store s r = .error .uniquenessError ↔
      (∃ x ∈ s.data_nodes, x.md5 = r.md5) ∨
        ∃ x ∈ s.data_nodes,
          (r.title = x.title ∧ r.functional = x.functional ∧ r.element = x.element ∧
            r.symbol = x.symbol) ∧ x.md5 ≠ r.md5) ∧
    (PotcarData.store s r = .ok { s with data_nodes := s.data_nodes ++ [r] } ↔
      ¬((∃ x ∈ s.data_nodes, x.md5 = r.md5) ∨
        ∃ x ∈ s.data_nodes,
          (r.title = x.title ∧ r.functional = x.functional ∧ r.element = x.element ∧
            r.symbol = x.symbol) ∧ x.md5 ≠ r.md5)) := by
  have hA : exists_attrs s.data_nodes (md5_filter r.md5) = true ↔
      ∃ x ∈ s.data_nodes, x.md5 = r.md5 := by
    rw [exists_attrs_iff]
    exact exists_congr fun x => and_congr_right fun _ => matches_md5_filter r.md5 x
  have hB : exists_attrs s.data_nodes (non_md5_filter r) = true ↔
      ∃ x ∈ s.data_nodes, r.title = x.title ∧ r.functional = x.functional ∧
        r.element = x.element ∧ r.symbol = x.symbol := by
    rw [exists_attrs_iff]
    exact exists_congr fun x => and_congr_right fun _ => matches_non_md5_filter r x
  have hcomb : (exists_attrs s.data_nodes (md5_filter r.md5) = true ∨
      exists_attrs s.data_nodes (non_md5_filter r) = true) ↔
      ((∃ x ∈ s.data_nodes, x.md5 = r.md5) ∨
        ∃ x ∈ s.data_nodes,
          (r.title = x.title ∧ r.functional = x.functional ∧ r.element = x.element ∧
            r.symbol = x.symbol) ∧ x.md5 ≠ r.md5) := by
    rw [hA, hB]
    constructor
    · rintro (h | ⟨x, hx, hattr⟩)
      · exact .inl h
      · by_cases hm : x.md5 = r.md5
        · exact .inl ⟨x, hx, hm⟩
        · exact .inr ⟨x, hx, hattr, hm⟩
    · rintro (h | ⟨x, hx, hattr, _⟩)
      · exact .inl h
      · exact .inr ⟨x, hx, hattr⟩
  unfold PotcarData.store
  cases hv : verify_unique s.data_nodes r with
  | error e =>
    obtain ⟨he, hor⟩ := (verify_unique_error_iff _ _ _).mp hv
    subst he
    dsimp only
    constructor <;> simp [hcomb.mp hor]
  | ok u =>
    cases u
    obtain ⟨h1, h2⟩ := (verify_unique_ok_iff _ _).mp hv
    have hnot : ¬((∃ x ∈ s.data_nodes, x.md5 = r.md5) ∨
        ∃ x ∈ s.data_nodes,
          (r.title = x.title ∧ r.functional = x.functional ∧ r.element = x.element ∧
            r.symbol = x.symbol) ∧ x.md5 ≠ r.md5) := by
      intro hor
      rcases hcomb.mpr hor with h | h
      · rw [h1] at h
        simp at h
      · rw [h2] at h
        simp at h
    dsimp only
    constructor <;> simp [hnot]

/-- Witness for C3: the metadata-collision case (same four attributes,
different hash) is rejected, and a store into a fresh table succeeds. -/
theorem insert_fails_witness :
    PotcarData.store { file_nodes := [], data_nodes := [parse_attrs payload_as_clash] }
        attrs_as = .error .uniquenessError ∧
      PotcarData.store empty_db attrs_as =
        .ok { empty_db with data_nodes := empty_db.data_nodes ++ [attrs_as] } :=
  ⟨(insert_fails_iff_hash_or_attr_collision
      { file_nodes := [], data_nodes := [parse_attrs payload_as_clash] } attrs_as).1.mpr
      (by decide),
   (insert_fails_iff_hash_or_attr_collision empty_db attrs_as).2.mpr (by decide)⟩

/-- C6: a shadow record holds nothing but the copied attribute quintuple (no
structural link to its file node), and the file node is recovered on demand
by querying with the complete attribute set: recovery yields exactly a file
node with those attributes and fails with NotFound when none exists. -/
theorem find_file_node_contract (s : DbState) (d : PotcarAttrs) :
    (∀ f, PotcarData.set_potcar_file_node f = f) ∧
      ((¬∃ x ∈ s.file_nodes, x = d) →
        PotcarData.find_file_node s d = .error .notFound) ∧
      (∀ x, PotcarData.find_file_node s d = .ok x → x ∈ s.file_nodes ∧ x = d) := by
  refine ⟨fun f => rfl, fun h => ?_, fun x hx => ?_⟩
  · have hq : query_by_attrs s.file_nodes (all_attrs_filter d) = [] := by
      cases hq : query_by_attrs s.file_nodes (all_attrs_filter d) with
      | nil => rfl
      | cons a t =>
        exact absurd ⟨a, ((mem_query_by_attrs _ _ _).mp (hq ▸ List.mem_cons_self a t)).1,
          ((matches_all_attrs_filter d a).mp
            ((mem_query_by_attrs _ _ _).mp (hq ▸ List.mem_cons_self a t)).2).symm⟩ h
    unfold PotcarData.find_file_node
    simp [find_one, hq]
  · have hq := (find_one_ok_iff s.file_nodes (all_attrs_filter d) x).mp hx
    have hmem := (mem_query_by_attrs _ _ _).mp (hq ▸ List.mem_singleton_self x)
    exact ⟨hmem.1, ((matches_all_attrs_filter d x).mp hmem.2).symm⟩

/-- Witness for C6: recovery fails with NotFound on the empty database and
returns the exactly-matching file node on the populated one. -/
theorem find_file_node_witness :
    ((¬∃ x ∈ empty_db.file_nodes, x = attrs_as) ∧
      PotcarData.find_file_node empty_db attrs_as = .error .notFound) ∧
      (attrs_as ∈ db_as.file_nodes ∧
        PotcarData.find_file_node db_as attrs_as = .ok attrs_as) :=
  ⟨⟨by decide, (find_file_node_contract empty_db attrs_as).2.1 (by decide)⟩,
   ⟨by decide, by decide⟩⟩

/-- C7: for every attribute filter, find returns the single matching record
when exactly one matches, fails with NotFound when zero match, and fails with
AmbiguousMatch when more than one matches. -/
theorem find_contract (tbl : List PotcarAttrs) (f : AttrFilter) :
    (∀ r, query_by_attrs tbl f = [r] → find_one tbl f = .ok r) ∧
      (query_by_attrs tbl f = [] → find_one tbl f = .error .notFound) ∧
      (2 ≤ (query_by_attrs tbl f).length → find_one tbl f = .error .ambiguousMatch) := by
  refine ⟨fun r h => (find_one_ok_iff tbl f r).mpr h,
    fun h => by simp [find_one, h], fun h => ?_⟩
  rcases hq : query_by_attrs tbl f with _ | ⟨a, _ | ⟨b, t⟩⟩
  · rw [hq] at h
    simp at h
  · rw [hq] at h
    simp at h
  · simp [find_one, hq]

/-- Witness for C7: the three behaviours of find at concrete tables. -/
theorem find_contract_witness :
    (query_by_attrs [attrs_as] (md5_filter attrs_as.md5) = [attrs_as] ∧
      find_one [attrs_as] (md5_filter attrs_as.md5) = .ok attrs_as) ∧
      (query_by_attrs [] (md5_filter attrs_as.md5) = [] ∧
        find_one [] (md5_filter attrs_as.md5) = .error .notFound) ∧
      (2 ≤ (query_by_attrs [attrs_as, attrs_as] (md5_filter attrs_as.md5)).length ∧
        find_one [attrs_as, attrs_as] (md5_filter attrs_as.md5) = .error .ambiguousMatch) :=
  ⟨⟨by decide, (find_contract [attrs_as] (md5_filter attrs_as.md5)).1 attrs_as (by decide)⟩,
   ⟨by decide, (find_contract [] (md5_filter attrs_as.md5)).2.1 (by decide)⟩,
   ⟨by decide, (find_contract [attrs_as, attrs_as] (md5_filter attrs_as.md5)).2.2 (by decide)⟩⟩

/-- C8: adding a payload to an already-populated content entity fails with a
capacity error, while the first add on an empty entity succeeds and sets the
five derived metadata attributes from the payload. -/
theorem add_file_contract (n : PotcarFileNode) (p : Payload) :
    (n.filelist ≠ [] → PotcarFileData.add_file n p = .error .capacityError) ∧
      (n.filelist = [] →
        PotcarFileData.add_file n p =
          .ok { filelist := [p],
                attrs := some { md5 := md5_file p, title := parse_title p,
                                functional := parse_functional p,
                                element := parse_element p,
                                symbol := parse_symbol p } }) := by
  constructor
  · intro h
    simp [PotcarFileData.add_file, h]
  · intro h
    simp [PotcarFileData.add_file, h, parse_attrs]

/-- Witness for C8: the capacity error on a populated entity and the
successful first add on an empty one. -/
theorem add_file_witness :
    (({ filelist := [payload_ga], attrs := some attrs_ga } : PotcarFileNode).filelist ≠ [] ∧
      PotcarFileData.add_file { filelist := [payload_ga], attrs := some attrs_ga }
        payload_as = .error .capacityError) ∧
      (({ filelist := [], attrs := none } : PotcarFileNode).filelist = [] ∧
        PotcarFileData.add_file { filelist := [], attrs := none } payload_as =
          .ok { filelist := [payload_as],
                attrs := some { md5 := md5_file payload_as, title := parse_title payload_as,
                                functional := parse_functional payload_as,
                                element := parse_element payload_as,
                                symbol := parse_symbol payload_as } }) :=
  ⟨⟨by decide,
    (add_file_contract { filelist := [payload_ga], attrs := some attrs_ga } payload_as).1
      (by decide)⟩,
   ⟨rfl,
    (add_file_contract { filelist := [], attrs := none } payload_as).2 rfl⟩⟩

/-- C9: omitting the description when the family name does not yet exist is a
reported caller error, while omitting it under an existing family name reuses
that family's existing description. -/
theorem try_grab_description_contract (groups : List Group) (group_name : String)
    (value : Option String) :
    (is_falsy value = true → group_name ∉ groups.map Group.name →
      try_grab_description groups group_name value = .error .missingParameter) ∧
      (is_falsy value = true → ∀ g, get_potcar_group groups group_name = some g →
        try_grab_description groups group_name value = .ok g.description) := by
  constructor
  · intro hf hnm
    have hc : (groups.map Group.name).contains group_name = false := by
      cases hcc : (groups.map Group.name).contains group_name
      · rfl
      · exact absurd (by simpa using hcc) hnm
    unfold try_grab_description
    rw [if_pos hf, if_neg (by rw [hc]; exact Bool.false_ne_true)]
  · intro hf g hg
    have hname : g.name = group_name := by
      have := List.find?_some hg
      simpa using this
    have hmem : group_name ∈ groups.map Group.name :=
      List.mem_map.mpr ⟨g, List.mem_of_find?_eq_some hg, hname⟩
    have hc : (groups.map Group.name).contains group_name = true := by
      simpa using hmem
    unfold try_grab_description
    rw [if_pos hf, if_pos hc, hg]

/-- Witness for C9: a missing description is an error for a new family name
and reuses the stored description for an existing one. -/
theorem try_grab_description_witness :
    (is_falsy none = true ∧ "OTHER" ∉ [Group.mk "TEST" "d"].map Group.name ∧
      try_grab_description [Group.mk "TEST" "d"] "OTHER" none = .error .missingParameter) ∧
      (get_potcar_group [Group.mk "TEST" "d"] "TEST" = some (Group.mk "TEST" "d") ∧
        try_grab_description [Group.mk "TEST" "d"] "TEST" none = .ok "d") :=
  ⟨⟨rfl, by decide,
    (try_grab_description_contract [Group.mk "TEST" "d"] "OTHER" none).1 rfl (by decide)⟩,
   ⟨by decide,
    (try_grab_description_contract [Group.mk "TEST" "d"] "TEST" none).2 rfl
      (Group.mk "TEST" "d") (by decide)⟩⟩

/-- C10: storing a PotcarFileData node first gets-or-creates the matching
metadata-only PotcarData node, so after every successful store a PotcarData
node with the same five attributes (md5 included) exists, and the file node
itself is appended; the hypothesis states that shadow records sharing the md5
agree on the derived attributes, as they are copies of the same quintuple. -/
theorem file_store_creates_shadow (s : DbState) (f : PotcarAttrs) (s' : DbState)
    (hcons : ∀ d ∈ s.data_nodes, d.md5 = f.md5 → d = f)
    (h : PotcarFileData.store s f = .ok s') :
    (∃ d ∈ s'.data_nodes, d = f) ∧ s'.file_nodes = s.file_nodes ++ [f] := by
  obtain ⟨s1, node, c, hgoc, hv, hfiles, hdata⟩ := potcar_file_store_ok s f s' h
  have hok := potcar_data_get_or_create_ok s f s1 node c hgoc
  constructor
  · cases c
    · obtain ⟨hs, hmem, hmd5⟩ := hok.2.2.1 rfl
      subst hs
      exact ⟨node, by rw [hdata]; exact hmem, hcons node hmem hmd5⟩
    · obtain ⟨hnf, hdn⟩ := hok.2.2.2 rfl
      refine ⟨f, ?_, rfl⟩
      rw [hdata, hdn]
      exact List.mem_append_right _ (List.mem_singleton_self f)
  · rw [hfiles, hok.1]

/-! Facts about the family upload loop. -/

theorem mem_add_to_family_self (fam : List Nat) (m : Nat) : m ∈ add_to_family fam m := by
  unfold add_to_family
  split
  case isTrue h => exact h
  case isFalse h => exact List.mem_append_right _ (List.mem_singleton_self m)

theorem mem_add_to_family_of_mem (fam : List Nat) (x m : Nat) (h : m ∈ fam) :
    m ∈ add_to_family fam x := by
  unfold add_to_family
  split
  · exact h
  · exact List.mem_append_left _ h

theorem countP_ext {α : Type} (l : List α) (p q : α → Bool)
    (h : ∀ a ∈ l, p a = q a) : l.countP p = l.countP q := by
  induction l with
  | nil => rfl
  | cons a l ih =>
    rw [List.countP_cons, List.countP_cons, h a (List.mem_cons_self a l),
      ih fun b hb => h b (List.mem_cons_of_mem a hb)]

theorem upload_step_ok (b : Bool) (st : UploadState) (p : Payload)
    (st' : UploadState) (c : Bool) (h : upload_step b st p = .ok (st', c)) :
    st'.family = add_to_family st.family (md5_file p) ∧
      (c = true ↔ exists_attrs st.db.file_nodes (md5_filter (md5_file p)) = false) ∧
      (∀ r ∈ st.db.file_nodes, r ∈ st'.db.file_nodes) ∧
      (∀ r ∈ st'.db.file_nodes, r ∈ st.db.file_nodes ∨ r.md5 = md5_file p) := by
  unfold upload_step at h
  split at h
  case isTrue hex =>
    split at h
    · simp at h
    · simp only [Except.ok.injEq, Prod.mk.injEq] at h
      obtain ⟨rfl, rfl⟩ := h
      exact ⟨rfl, by simp [hex], fun r hr => hr, fun r hr => .inl hr⟩
  case isFalse hex =>
    cases hgoc : PotcarFileData.get_or_create st.db p with
    | error e => rw [hgoc] at h; simp at h
    | ok res =>
      obtain ⟨db', node, cr⟩ := res
      rw [hgoc] at h
      dsimp only at h
      simp only [Except.ok.injEq, Prod.mk.injEq] at h
      obtain ⟨rfl, rfl⟩ := h
      have hok := potcar_file_get_or_create_ok st.db p db' node cr hgoc
      have hexf : exists_attrs st.db.file_nodes (md5_filter (md5_file p)) = false := by
        cases hb : exists_attrs st.db.file_nodes (md5_filter (md5_file p))
        · rfl
        · exact absurd hb hex
      refine ⟨by rw [hok.1], by simp [hexf], ?_, ?_⟩
      · intro r hr
        cases cr with
        | false => rw [(hok.2.2.1 rfl).1]; exact hr
        | true => rw [(hok.2.2.2 rfl).2]; exact List.mem_append_left _ hr
      · intro r hr
        cases cr with
        | false =>
          rw [(hok.2.2.1 rfl).1] at hr
          exact .inl hr
        | true =>
          rw [(hok.2.2.2 rfl).2] at hr
          rcases List.mem_append.mp hr with hl | hl
          · exact .inl hl
          · rw [List.mem_singleton.mp hl]
            exact .inr hok.1

theorem upload_loop_mono (b : Bool) :
    ∀ (files : List Payload) (st : UploadState) (acc : Nat) (st' : UploadState) (n : Nat),
      upload_loop b st files acc = .ok (st', n) →
      ∀ r ∈ st.db.file_nodes, r ∈ st'.db.file_nodes := by
  intro files
  induction files with
  | nil =>
    intro st acc st' n h r hr
    unfold upload_loop at h
    simp only [Except.ok.injEq, Prod.mk.injEq] at h
    obtain ⟨rfl, rfl⟩ := h
    exact hr
  | cons p ps ih =>
    intro st acc st' n h r hr
    unfold upload_loop at h
    cases hs : upload_step b st p with
    | error e => rw [hs] at h; simp at h
    | ok res =>
      obtain ⟨st1, c⟩ := res
      rw [hs] at h
      dsimp only at h
      exact ih st1 _ st' n h r ((upload_step_ok b st p st1 c hs).2.2.1 r hr)

theorem upload_loop_cons (b : Bool) (st : UploadState) (p : Payload)
    (ps : List Payload) (acc : Nat) :
    upload_loop b st (p :: ps) acc =
      match upload_step b st p with
      | .error e => .error e
      | .ok (st', created) =>
        upload_loop b st' ps (acc + if created then 1 else 0) := by
  conv_lhs => unfold upload_loop

theorem upload_loop_append (b : Bool) :
    ∀ (xs ys : List Payload) (st : UploadState) (acc : Nat),
      upload_loop b st (xs ++ ys) acc =
        match upload_loop b st xs acc with
        | .error e => .error e
        | .ok (st1, n) => upload_loop b st1 ys n := by
  intro xs
  induction xs with
  | nil => intro ys st acc; rfl
  | cons x xs ih =>
    intro ys st acc
    rw [List.cons_append, upload_loop_cons, upload_loop_cons]
    cases hs : upload_step b st x with
    | error e => rfl
    | ok res =>
      obtain ⟨st1, c⟩ := res
      dsimp only
      exact ih ys st1 _

/-- C4: under stop_if_existing, hitting a file whose hash is already stored
fails with a DuplicateUpload error identifying that file, whatever files
follow it in the batch: the remainder is never processed. -/
theorem upload_stop_on_duplicate (st : UploadState) (p : Payload)
    (pre post : List Payload) (st1 : UploadState) (k : Nat)
    (hex : ∃ r ∈ st.db.file_nodes, r.md5 = md5_file p)
    (hpre : upload_loop true st pre 0 = .ok (st1, k)) :
    upload_potcar_family st (pre ++ p :: post) true = .error (.duplicateUpload p) := by
  obtain ⟨r, hr, hm⟩ := hex
  have hr1 : r ∈ st1.db.file_nodes := upload_loop_mono true pre st 0 st1 k hpre r hr
  have hex1 : exists_attrs st1.db.file_nodes (md5_filter (md5_file p)) = true :=
    (exists_attrs_iff _ _).mpr ⟨r, hr1, (matches_md5_filter _ _).mpr hm⟩
  have hstep : upload_step true st1 p = .error (.duplicateUpload p) := by
    unfold upload_step
    rw [if_pos hex1]
    rfl
  have hloop : upload_loop true st (pre ++ p :: post) 0 = .error (.duplicateUpload p) := by
    rw [upload_loop_append, hpre]
    dsimp only
    unfold upload_loop
    rw [hstep]
  unfold upload_potcar_family
  rw [hloop]

theorem upload_loop_false_spec :
    ∀ (files : List Payload) (st : UploadState) (acc : Nat) (st' : UploadState) (n : Nat),
      (files.map md5_file).Nodup →
      upload_loop false st files acc = .ok (st', n) →
      n = acc + files.countP
          (fun q => !exists_attrs st.db.file_nodes (md5_filter (md5_file q))) ∧
        (∀ q ∈ files, md5_file q ∈ st'.family) ∧
        (∀ m ∈ st.family, m ∈ st'.family) ∧
        (∀ r ∈ st.db.file_nodes, r ∈ st'.db.file_nodes) ∧
        (∀ r ∈ st'.db.file_nodes, r ∈ st.db.file_nodes ∨ r.md5 ∈ files.map md5_file) := by
  intro files
  induction files with
  | nil =>
    intro st acc st' n hnd h
    unfold upload_loop at h
    simp only [Except.ok.injEq, Prod.mk.injEq] at h
    obtain ⟨rfl, rfl⟩ := h
    exact ⟨by simp, fun q hq => absurd hq (List.not_mem_nil q), fun m hm => hm,
      fun r hr => hr, fun r hr => .inl hr⟩
  | cons p ps ih =>
    intro st acc st' n hnd h
    unfold upload_loop at h
    cases hs : upload_step false st p with
    | error e => rw [hs] at h; simp at h
    | ok res =>
      obtain ⟨st1, c⟩ := res
      rw [hs] at h
      dsimp only at h
      obtain ⟨hfam, hciff, hmono, hbound⟩ := upload_step_ok false st p st1 c hs
      have hnd' : (List.map md5_file (p :: ps)).Nodup := hnd
      rw [List.map_cons, List.nodup_cons] at hnd'
      obtain ⟨hhead, hndtail⟩ := hnd'
      obtain ⟨hn, hqf, hfmono, hdbmono, hdbbound⟩ := ih st1 _ st' n hndtail h
      have hpt : ∀ q ∈ ps,
          (!exists_attrs st1.db.file_nodes (md5_filter (md5_file q))) =
            (!exists_attrs st.db.file_nodes (md5_filter (md5_file q))) := by
        intro q hq
        have hne : md5_file q ≠ md5_file p := by
          intro hcontra
          exact hhead (hcontra ▸ List.mem_map_of_mem md5_file hq)
        have hsame : exists_attrs st1.db.file_nodes (md5_filter (md5_file q)) =
            exists_attrs st.db.file_nodes (md5_filter (md5_file q)) := by
          cases hb : exists_attrs st.db.file_nodes (md5_filter (md5_file q)) with
          | true =>
            obtain ⟨x, hx, hmx⟩ := (exists_attrs_iff _ _).mp hb
            exact (exists_attrs_iff _ _).mpr ⟨x, hmono x hx, hmx⟩
          | false =>
            cases hb1 : exists_attrs st1.db.file_nodes (md5_filter (md5_file q)) with
            | false => rfl
            | true =>
              obtain ⟨x, hx, hmx⟩ := (exists_attrs_iff _ _).mp hb1
              rcases hbound x hx with hin | hxm
              · have hcontr : exists_attrs st.db.file_nodes
                    (md5_filter (md5_file q)) = true :=
                  (exists_attrs_iff _ _).mpr ⟨x, hin, hmx⟩
                rw [hb] at hcontr
                exact absurd hcontr (by simp)
              · exact absurd (((matches_md5_filter _ _).mp hmx) ▸ hxm) hne
        rw [hsame]
      have hcount :
          ps.countP (fun q => !exists_attrs st1.db.file_nodes (md5_filter (md5_file q))) =
            ps.countP (fun q => !exists_attrs st.db.file_nodes (md5_filter (md5_file q))) :=
        countP_ext ps _ _ hpt
      refine ⟨?_, ?_, ?_, ?_, ?_⟩
      · rw [List.countP_cons]
        rw [hcount] at hn
        have hheadite :
            (if c = true then 1 else 0) =
              (if (!exists_attrs st.db.file_nodes (md5_filter (md5_file p))) = true
                then 1 else 0) := by
          cases c with
          | true => rw [hciff.mp rfl]; rfl
          | false =>
            have hb : exists_attrs st.db.file_nodes (md5_filter (md5_file p)) = true := by
              cases hb' : exists_attrs st.db.file_nodes (md5_filter (md5_file p)) with
              | true => rfl
              | false => exact absurd (hciff.mpr hb') (by simp)
            rw [hb]
            rfl
        rw [hheadite] at hn
        generalize ps.countP
          (fun q => !exists_attrs st.db.file_nodes (md5_filter (md5_file q))) = N at hn ⊢
        cases hb : (!exists_attrs st.db.file_nodes (md5_filter (md5_file p))) with
        | true => rw [hb] at hn; simp only [if_pos rfl] at hn ⊢; omega
        | false => rw [hb] at hn; simp only [Bool.false_eq_true, if_neg] at hn ⊢; omega
      · intro q hq
        rcases List.mem_cons.mp hq with rfl | hq'
        · exact hfmono _ (hfam ▸ mem_add_to_family_self st.family (md5_file q))
        · exact hqf q hq'
      · intro m hm
        exact hfmono m (hfam ▸ mem_add_to_family_of_mem st.family (md5_file p) m hm)
      · intro r hr
        exact hdbmono r (hmono r hr)
      · intro r hr
        rcases hdbbound r hr with hr1 | hr1
        · rcases hbound r hr1 with hr2 | hr2
          · exact .inl hr2
          · exact .inr (by rw [List.map_cons]; exact hr2 ▸ List.mem_cons_self _ _)
        · exact .inr (by rw [List.map_cons]; exact List.mem_cons_of_mem _ hr1)

/-- C5: with stop_if_existing false, a family upload returns the number of
files found and the number newly stored; files whose hash was already in the
store are added to the family without being counted as newly stored. -/
theorem upload_family_counts (st : UploadState) (files : List Payload)
    (st' : UploadState) (found stored : Nat)
    (hnodup : (files.map md5_file).Nodup)
    (h : upload_potcar_family st files false = .ok (st', found, stored)) :
    found = files.length ∧
      stored = files.countP
        (fun p => !exists_attrs st.db.file_nodes (md5_filter (md5_file p))) ∧
      ∀ p ∈ files, md5_file p ∈ st'.family := by
  unfold upload_potcar_family at h
  cases hl : upload_loop false st files 0 with
  | error e => rw [hl] at h; simp at h
  | ok res =>
    obtain ⟨st1, n⟩ := res
    rw [hl] at h
    dsimp only at h
    simp only [Except.ok.injEq, Prod.mk.injEq] at h
    obtain ⟨rfl, rfl, rfl⟩ := h
    obtain ⟨hn, hqf, _, _, _⟩ := upload_loop_false_spec files st 0 st1 n hnodup hl
    exact ⟨rfl, by rw [hn, Nat.zero_add], hqf⟩

/-- Witness for C4: uploading a batch whose first file is already stored,
under stop_if_existing, fails with DuplicateUpload naming that file; the
trailing Ga file is never processed. -/
theorem upload_stop_on_duplicate_witness :
    ((∃ r ∈ dup_start.db.file_nodes, r.md5 = md5_file payload_as) ∧
      upload_loop true dup_start [] 0 = .ok (dup_start, 0)) ∧
      upload_potcar_family dup_start ([] ++ payload_as :: [payload_ga]) true =
        .error (.duplicateUpload payload_as) :=
  ⟨⟨by decide, rfl⟩,
   upload_stop_on_duplicate dup_start payload_as [] [payload_ga] dup_start 0
     (by decide) rfl⟩

/-- Witness for C5: a folder with one new file and one already-stored file,
with stop_if_existing false, yields found 2 and newly stored 1, and both
files end up in the family. -/
theorem upload_family_counts_witness :
    (([payload_as, payload_ga].map md5_file).Nodup ∧
      upload_potcar_family upload_start [payload_as, payload_ga] false =
        .ok (upload_result, 2, 1)) ∧
      (2 = [payload_as, payload_ga].length ∧
        1 = [payload_as, payload_ga].countP
          (fun p => !exists_attrs upload_start.db.file_nodes (md5_filter (md5_file p))) ∧
        ∀ p ∈ [payload_as, payload_ga], md5_file p ∈ upload_result.family) :=
  ⟨⟨by decide, by decide⟩,
   upload_family_counts upload_start [payload_as, payload_ga] upload_result 2 1
     (by decide) (by decide)⟩

/-- Witness for C10: storing the sample As file node into the empty database
creates its shadow record eagerly. -/
theorem file_store_creates_shadow_witness :
    PotcarFileData.store empty_db attrs_as = .ok db_as ∧
      ((∃ d ∈ db_as.data_nodes, d = attrs_as) ∧
        db_as.file_nodes = empty_db.file_nodes ++ [attrs_as]) :=
  ⟨by decide,
   file_store_creates_shadow empty_db attrs_as db_as (by decide) (by decide)⟩

/-! Facts about the multi-record reader. -/

theorem split_records_nil (acc : List String) :
    split_records acc [] = if acc.isEmpty then [] else [acc.reverse] := by
  conv_lhs => unfold split_records

theorem split_records_cons (acc : List String) (l : String) (rest : List String) :
    split_records acc (l :: rest) =
      if l = endOfRecord then (l :: acc).reverse :: split_records [] rest
      else split_records (l :: acc) rest := by
  conv_lhs => unfold split_records

theorem split_records_no_marker (body : List String)
    (h : ∀ l ∈ body, l ≠ endOfRecord) :
    ∀ (acc rest : List String),
      split_records acc (body ++ rest) = split_records (body.reverse ++ acc) rest := by
  induction body with
  | nil => intro acc rest; simp
  | cons b bs ih =>
    intro acc rest
    rw [List.cons_append, split_records_cons, if_neg (h b (List.mem_cons_self b bs))]
    rw [ih (fun l hl => h l (List.mem_cons_of_mem b hl)) (b :: acc) rest]
    congr 1
    simp

theorem split_records_record (r : List String) (hr : well_formed_record r)
    (rest : List String) :
    split_records [] (r ++ rest) = r :: split_records [] rest := by
  obtain ⟨hne, hlast, hbody⟩ := hr
  have hdecomp : r.dropLast ++ [endOfRecord] = r := by
    have hd := List.dropLast_append_getLast hne
    have h2 := List.getLast?_eq_getLast r hne
    rw [h2] at hlast
    have hl : r.getLast hne = endOfRecord := Option.some.inj hlast
    rw [← hl]
    exact hd
  have harr : r ++ rest = r.dropLast ++ (endOfRecord :: rest) := by
    conv_lhs => rw [← hdecomp]
    rw [List.append_assoc, List.singleton_append]
  rw [harr, split_records_no_marker r.dropLast hbody [] (endOfRecord :: rest),
    List.append_nil, split_records_cons, if_pos rfl]
  congr 1
  rw [List.reverse_cons, List.reverse_reverse]
  exact hdecomp

/-- C1: for every ordered list of well-formed records, reading back the file
produced by the multi-record writer returns exactly the original records, so
the wrapper hash list (hence its multiset) is preserved in the same order. -/
theorem multi_io_round_trip (W : List (List String))
    (h : ∀ r ∈ W, well_formed_record r) :
    multi_read (multi_write W) = W ∧
      (multi_read (multi_write W)).map line_md5 = W.map line_md5 := by
  have hid : multi_read (multi_write W) = W := by
    induction W with
    | nil => rfl
    | cons r ws ih =>
      have hw : multi_write (r :: ws) = r ++ multi_write ws := by
        simp [multi_write]
      unfold multi_read
      rw [hw, split_records_record r (h r (List.mem_cons_self r ws))]
      rw [show split_records [] (multi_write ws) = multi_read (multi_write ws) from rfl]
      rw [ih fun x hx => h x (List.mem_cons_of_mem r hx)]
  exact ⟨hid, by rw [hid]⟩

/-- Witness for C1: the round trip on the concatenation of the sample As and
Ga records. -/
theorem multi_io_round_trip_witness :
    (∀ r ∈ sample_records, well_formed_record r) ∧
      (multi_read (multi_write sample_records) = sample_records ∧
        (multi_read (multi_write sample_records)).map line_md5 =
          sample_records.map line_md5) :=
  ⟨by decide, multi_io_round_trip sample_records (by decide)⟩

end AiidaVasp
